import Mathlib

set_option maxRecDepth 8192

/-!
Shallow embedding of the spath-local client layer.

The repository is a thin Solana client: two React button components
(`AcceptTaskButton`, `ReclaimTaskFundsButton` in src/src/AcceptTaskButton.tsx),
a provider-acquisition hook (`useSolanaProgram` in src/unnamed/part_000) and an
integration test (src/tests/test/TestCreateTask.ts).  The embedding below
translates, from that source:

* the string-scanning error translator of the catch blocks;
* the `getProvider` acquirers (button variant and hook variant);
* the full click handlers (`handleAcceptTask`, `handleReclaimFunds`) as
  functions from the ambient wallet state, the caller-supplied props and an
  abstract network outcome to the ordered list of callback invocations plus
  the loading-flag trace;
* the PDA seed constructions passed to the address deriver, and the deriver
  itself (library code, modelled from the spec as a pure nonce search over
  abstract hash/curve parameters);
* the test harness's tolerant handling of an already-initialized Config.

Strings are Lean `String`s; JS substring search is reimplemented on the
underlying character lists so that everything is executable and decidable.
-/

namespace Spath

/-- A public key, represented by its byte sequence. -/
structure PubKey where
  bytes : List Nat
deriving DecidableEq, Repr

/-- Suffix of the list after the first occurrence of `pat`
(JS `indexOf` followed by `substring(idx + pat.length)`); `none` when `pat`
does not occur. -/
def afterFirst (pat : List Char) : List Char → Option (List Char)
  | [] => if pat = [] then some [] else none
  | c :: rest =>
    if pat.isPrefixOf (c :: rest) then some ((c :: rest).drop pat.length)
    else afterFirst pat rest

/-- The substring of `s` after the first occurrence of `pat`, if any. -/
def strAfter (s pat : String) : Option String :=
  (afterFirst pat.toList s.toList).map String.mk

/-- JS `String.prototype.includes`. -/
def strContains (s pat : String) : Bool :=
  (strAfter s pat).isSome

/-- JS `String.prototype.startsWith`. -/
def strStartsWith (s pat : String) : Bool :=
  pat.toList.isPrefixOf s.toList

/-- A thrown failure object: its `message` (the empty string models an absent
or empty, hence falsy, message) and its optional array of diagnostic log
lines (`none` models an absent `logs` field). -/
structure ThrownError where
  message : String
  logs : Option (List String)
deriving DecidableEq, Repr

/-- The program-error marker scanned for in log lines. -/
def sunpathMarker : String := "SunpathError::"

/-- The generic error marker scanned for in log lines. -/
def errorMarker : String := "Error:"

/-- The abnormal-termination marker scanned for in log lines. -/
def failedMarker : String := "Program failed to complete"

/-- The unknown-error default message. -/
def unknownErrorMsg : String := "不明なエラーが発生しました。"

/-- The fixed message for an abnormal-termination log line. -/
def progFailedMsg : String := "プログラムの実行に失敗しました。"

/-- The wallet-not-connected message. -/
def wncMsg : String := "ウォレットが接続されていません。"

/-- Tag table of the accept invoker's catch block
(src/src/AcceptTaskButton.tsx, `handleAcceptTask`). -/
def acceptTagTable : List (String × String) :=
  [("NotTaskConsigner", "タスクの承認権限がありません (NotTaskConsigner)。"),
   ("TaskNotOpen", "タスクが承認可能な状態ではありません (TaskNotOpen)。"),
   ("TaskExpired", "タスクは期限切れです (TaskExpired)。"),
   ("InvalidRecipient", "無効な受取人アドレスです (InvalidRecipient)。")]

/-- Tag table of the reclaim invoker's catch block
(src/src/AcceptTaskButton.tsx, `handleReclaimFunds`). -/
def reclaimTagTable : List (String × String) :=
  [("NotConsigner", "タスクの資金回収権限がありません (NotConsigner)。"),
   ("CannotReclaimFunds", "まだ資金を回収できません (CannotReclaimFunds)。タスクが期限切れまたは拒否後のペナルティ期間が終了しているか確認してください。"),
   ("DenialLockupActive", "拒否後のロックアップ期間が有効です。まだ資金を回収できません (DenialLockupActive)。")]

/-- The if/else-if prefix-matching chain applied to the substring after the
program-error marker: the first table entry whose tag is a prefix wins;
with no match the raw substring is kept. -/
def applyTagTable (tbl : List (String × String)) (tag : String) : String :=
  match tbl with
  | [] => tag
  | (p, msg) :: rest => if strStartsWith tag p then msg else applyTagTable rest tag

/-- The `for (const log of error.logs)` loop of the catch blocks: a line
containing the program-error marker translates its suffix and breaks; a line
containing the generic error marker overwrites the accumulated message with
the line itself; a line containing the abnormal-termination marker overwrites
it with the fixed message; other lines leave it unchanged. -/
def scanLogs (tbl : List (String × String)) : List String → String → String
  | [], acc => acc
  | l :: rest, acc =>
    match strAfter l sunpathMarker with
    | some tag => applyTagTable tbl tag
    | none =>
      if strContains l errorMarker then scanLogs tbl rest l
      else if strContains l failedMarker then scanLogs tbl rest progFailedMsg
      else scanLogs tbl rest acc

/-- The error translator of the catch blocks: start from
`error.message || unknownErrorMsg`, then, when a `logs` array is present,
run the scanning loop over it. -/
def translateError (tbl : List (String × String)) (e : ThrownError) : String :=
  let base := if e.message = "" then unknownErrorMsg else e.message
  match e.logs with
  | none => base
  | some logs => scanLogs tbl logs base

/-- Suffix after the marker of the first log line containing the
program-error marker, if any. -/
def findFirstSunpath : List String → Option String
  | [] => none
  | l :: rest =>
    match strAfter l sunpathMarker with
    | some tag => some tag
    | none => findFirstSunpath rest

/-- What a single non-marker log line contributes to the fallback message:
a line with the generic error marker contributes itself, a line with the
abnormal-termination marker contributes the fixed message, others nothing. -/
def lineFallback (l : String) : Option String :=
  if strContains l errorMarker then some l
  else if strContains l failedMarker then some progFailedMsg
  else none

/-- The contribution of the last log line that contributes a fallback
message, if any. -/
def lastRelevant : List String → Option String
  | [] => none
  | l :: rest =>
    match lastRelevant rest with
    | some m => some m
    | none => lineFallback l

/-- Declarative description of the translator, used as the amended-claim
statement: the first line containing the program-error marker wins (its
suffix run through the prefix table); otherwise the last line carrying a
fallback contribution determines the message; otherwise the thrown object's
own message or the unknown-error default. -/
def translateErrorModel (tbl : List (String × String)) (e : ThrownError) : String :=
  let base := if e.message = "" then unknownErrorMsg else e.message
  match e.logs with
  | none => base
  | some logs =>
    match findFirstSunpath logs with
    | some tag => applyTagTable tbl tag
    | none => (lastRelevant logs).getD base

/-- First list element satisfying the predicate, if any. -/
def findFirstBy (p : String → Bool) : List String → Option String
  | [] => none
  | l :: rest => if p l then some l else findFirstBy p rest

/-- The single fixed tag table named by the claim, in the claim's order. -/
def claimedTagTable : List (String × String) := acceptTagTable ++ reclaimTagTable

/-- The translator exactly as the claim words it: first marker line wins via
the single fixed tag table; otherwise the FIRST line containing the generic
error marker is used verbatim; otherwise an abnormal-termination line yields
the fixed message; otherwise the thrown object's message or the default. -/
def translateErrorClaimed (e : ThrownError) : String :=
  let base := if e.message = "" then unknownErrorMsg else e.message
  match e.logs with
  | none => base
  | some logs =>
    match findFirstSunpath logs with
    | some tag => applyTagTable claimedTagTable tag
    | none =>
      match findFirstBy (fun l => strContains l errorMarker) logs with
      | some l => l
      | none =>
        if logs.any (fun l => strContains l failedMarker) then progFailedMsg else base

/-- A callback invocation observed by the caller of a button component. -/
inductive CallbackCall where
  | success (sig : String)
  | failure (msg : String)
deriving DecidableEq, Repr

/-- A signing/submission context (AnchorProvider): the connected wallet key
and the preflight commitment it is constructed with. -/
structure Provider where
  walletKey : PubKey
  preflightCommitment : String
deriving DecidableEq, Repr

/-- The `getProvider` of the button components: with both the public key and
the signing capability present it builds a provider with preflight
commitment "confirmed"; otherwise it invokes the failure callback and
returns null.  The second component lists the callback invocations it
performs. -/
def getProvider (wallet : Option PubKey) (canSign : Bool) :
    Option Provider × List CallbackCall :=
  match wallet, canSign with
  | some pk, true => (some { walletKey := pk, preflightCommitment := "confirmed" }, [])
  | _, _ => (none, [CallbackCall.failure wncMsg])

/-- The `getProvider` of the `useSolanaProgram` hook (src/unnamed/part_000):
same presence condition, but it returns null without invoking any error
callback (the hook has none). -/
def useSolanaProgramProvider (wallet : Option PubKey) (canSign : Bool) :
    Option Provider :=
  match wallet, canSign with
  | some pk, true => some { walletKey := pk, preflightCommitment := "confirmed" }
  | _, _ => none

/-- The hook acquirer paired with its (always empty) list of callback
invocations, so that both acquirers can be compared on the same interface. -/
def useSolanaProgramAcquire (wallet : Option PubKey) (canSign : Bool) :
    Option Provider × List CallbackCall :=
  (useSolanaProgramProvider wallet canSign, [])

/-- Outcome of the awaited rpc-and-confirm sequence inside the try block:
either some awaited call threw, or a transaction signature was returned and
the confirmation resolved with the given on-chain error, if any. -/
inductive RpcOutcome where
  | threw (e : ThrownError)
  | submitted (sig : String) (confirmErr : Option String)
deriving DecidableEq, Repr

/-- The commitment level both handlers pass to `confirmTransaction`. -/
def confirmCommitment : String := "finalized"

/-- The message of the error thrown when a confirmed transaction carries an
on-chain error. -/
def confirmFailedMsg (err : String) : String :=
  "トランザクションが失敗しました: " ++ err

/-- The callback invocations produced by the try/catch around submission and
confirmation: a throw is routed through the error translator to the failure
callback; a clean confirmation fires the success callback with the
signature; a confirmation carrying an error throws a message-only error
which the same catch block routes to the failure callback. -/
def submitOutcome (tbl : List (String × String)) (net : RpcOutcome) :
    List CallbackCall :=
  match net with
  | RpcOutcome.threw e => [CallbackCall.failure (translateError tbl e)]
  | RpcOutcome.submitted sig none => [CallbackCall.success sig]
  | RpcOutcome.submitted _ (some cerr) =>
      [CallbackCall.failure (translateError tbl { message := confirmFailedMsg cerr, logs := none })]

/-- Result of one click-handler run: the ordered callback invocations, and
the loading-flag trace (whether `setIsLoading(true)` ran, whether the try
block around submission was reached, and the flag's value when the handler
finishes). -/
structure HandlerResult where
  events : List CallbackCall
  enteredLoading : Bool
  reachedSubmit : Bool
  loadingAtEnd : Bool
deriving DecidableEq, Repr

/-- Prefix of the local-validation error messages of `handleAcceptTask`. -/
def pkFormatMsg (detail : String) : String :=
  "公開鍵の形式が正しくありません: " ++ detail

/-- Message thrown when the task-PDA or recipient string is missing. -/
def requiredMsg : String := "タスクPDAと受取人アドレスは必須です。"

/-- Message thrown when the recipient equals the connected wallet. -/
def sameAddressMsg : String := "受取人はタスク作成者と同じアドレスにすることはできません。"

/-- The local validation try/catch of `handleAcceptTask`: missing strings
throw first, then each string is parsed as a public key (`parse` models the
`PublicKey` constructor, `perr` its exception message for a given input),
then the recipient is compared with the connected wallet.  The catch block
wraps the thrown message. -/
def acceptValidate (parse : String → Option PubKey) (perr : String → String)
    (pk : PubKey) (taskStr recipStr : String) : Except String (PubKey × PubKey) :=
  if taskStr = "" ∨ recipStr = "" then Except.error (pkFormatMsg requiredMsg)
  else
    match parse taskStr with
    | none => Except.error (pkFormatMsg (perr taskStr))
    | some t =>
      match parse recipStr with
      | none => Except.error (pkFormatMsg (perr recipStr))
      | some r =>
        if r = pk then Except.error (pkFormatMsg sameAddressMsg)
        else Except.ok (t, r)

/-- Props and ambient wallet state of one `AcceptTaskButton` click. -/
structure AcceptInputs where
  wallet : Option PubKey
  canSign : Bool
  taskStr : String
  recipStr : String

/-- The `handleAcceptTask` click handler: acquire the provider (which itself
may invoke the failure callback), re-check the public key (invoking the
failure callback a second time when it is absent), validate locally, then
set the busy flag, submit, and clear the flag in the finally block. -/
def handleAcceptTask (parse : String → Option PubKey) (perr : String → String)
    (inp : AcceptInputs) (net : RpcOutcome) : HandlerResult :=
  match getProvider inp.wallet inp.canSign with
  | (some prov, evs) =>
    match acceptValidate parse perr prov.walletKey inp.taskStr inp.recipStr with
    | Except.error m =>
      { events := evs ++ [CallbackCall.failure m],
        enteredLoading := false, reachedSubmit := false, loadingAtEnd := false }
    | Except.ok _ =>
      { events := evs ++ submitOutcome acceptTagTable net,
        enteredLoading := true, reachedSubmit := true, loadingAtEnd := false }
  | (none, evs) =>
    { events := evs ++ (if inp.wallet.isNone then [CallbackCall.failure wncMsg] else []),
      enteredLoading := false, reachedSubmit := false, loadingAtEnd := false }

/-- Prefix of the local-validation error message of `handleReclaimFunds`. -/
def reclaimPdaFormatMsg (detail : String) : String :=
  "タスクアカウントPDAの形式が正しくありません: " ++ detail

/-- Props and ambient wallet state of one `ReclaimTaskFundsButton` click. -/
structure ReclaimInputs where
  wallet : Option PubKey
  canSign : Bool
  taskStr : String

/-- The local validation of `handleReclaimFunds`: only the task-PDA string is
parsed; its parse failure message is wrapped. -/
def reclaimValidate (parse : String → Option PubKey) (perr : String → String)
    (taskStr : String) : Except String PubKey :=
  match parse taskStr with
  | none => Except.error (reclaimPdaFormatMsg (perr taskStr))
  | some t => Except.ok t

/-- The `handleReclaimFunds` click handler, same shape as the accept handler
but with the reclaim tag table and only the task-PDA validation. -/
def handleReclaimFunds (parse : String → Option PubKey) (perr : String → String)
    (inp : ReclaimInputs) (net : RpcOutcome) : HandlerResult :=
  match getProvider inp.wallet inp.canSign with
  | (some _, evs) =>
    match reclaimValidate parse perr inp.taskStr with
    | Except.error m =>
      { events := evs ++ [CallbackCall.failure m],
        enteredLoading := false, reachedSubmit := false, loadingAtEnd := false }
    | Except.ok _ =>
      { events := evs ++ submitOutcome reclaimTagTable net,
        enteredLoading := true, reachedSubmit := true, loadingAtEnd := false }
  | (none, evs) =>
    { events := evs ++ (if inp.wallet.isNone then [CallbackCall.failure wncMsg] else []),
      enteredLoading := false, reachedSubmit := false, loadingAtEnd := false }

/-- The accept button's disabled predicate. -/
def acceptButtonDisabled (wallet : Option PubKey) (isLoading : Bool)
    (taskStr recipStr : String) : Bool :=
  wallet.isNone || isLoading || taskStr == "" || recipStr == ""

/-- The reclaim button's disabled predicate. -/
def reclaimButtonDisabled (wallet : Option PubKey) (isLoading : Bool)
    (taskStr : String) : Bool :=
  wallet.isNone || isLoading || taskStr == ""

/-- UTF-8 bytes of an ASCII seed literal (all seed tags are ASCII). -/
def asciiBytes (s : String) : List Nat :=
  s.toList.map Char.toNat

/-- The first `k` little-endian base-256 digits of `n`. -/
def natToLEBytes : Nat → Nat → List Nat
  | 0, _ => []
  | k + 1, n => n % 256 :: natToLEBytes k (n / 256)

/-- The 8-byte little-endian encoding used for the task id
(`taskId.toArrayLike(Buffer, "le", 8)`). -/
def natToLE8 (n : Nat) : List Nat := natToLEBytes 8 n

/-- Value of a little-endian byte list. -/
def leBytesToNat : List Nat → Nat
  | [] => 0
  | b :: bs => b + 256 * leBytesToNat bs

/-- Seeds the client passes for the Config PDA
(`[Buffer.from("config_v2")]`). -/
def configSeeds : List (List Nat) := [asciiBytes "config_v2"]

/-- Seeds the test passes for the Task account PDA
(`["task_account", consigner bytes, taskId LE8]`). -/
def taskAccountSeeds (consigner : PubKey) (taskId : Nat) : List (List Nat) :=
  [asciiBytes "task_account", consigner.bytes, natToLE8 taskId]

/-- Seeds the client passes for the admin-action counter PDA
(`["admin_counter", consigner bytes]`). -/
def adminCounterSeeds (consigner : PubKey) : List (List Nat) :=
  [asciiBytes "admin_counter", consigner.bytes]

/-- Modelled from the spec: the documented Config seed scheme of §4.2. -/
def specConfigSeeds : List (List Nat) := [asciiBytes "config_v2"]

/-- Modelled from the spec: the documented Task-account seed scheme of §4.2,
`["task_account", consignerPublicKeyBytes, taskIdLE8]`. -/
def specTaskAccountSeeds (consignerPublicKeyBytes : List Nat) (taskId : Nat) :
    List (List Nat) :=
  [asciiBytes "task_account", consignerPublicKeyBytes, natToLE8 taskId]

/-- Modelled from the spec: the documented admin-action counter seed scheme
of §4.2, `["admin_counter", consignerPublicKeyBytes]`. -/
def specAdminCounterSeeds (consignerPublicKeyBytes : List Nat) : List (List Nat) :=
  [asciiBytes "admin_counter", consignerPublicKeyBytes]

/-- Modelled from the spec: the address deriver (§4.2) is library code outside
this repository; a candidate address is a hash of the concatenated seed
bytes, the program identity and a fixed domain tag.  The hash (sha256) is an
abstract parameter. -/
def createProgramAddress (hash : List Nat → Nat) (seeds : List (List Nat))
    (programId : List Nat) : Nat :=
  hash (seeds.flatten ++ programId ++ asciiBytes "ProgramDerivedAddress")

/-- Modelled from the spec: the nonce search of the deriver, trying the
one-byte nonce from the given value downward and returning the first
candidate that is not on the curve (the curve membership test is an abstract
parameter), together with that disambiguation nonce. -/
def findProgramAddressAux (hash : List Nat → Nat) (onCurve : Nat → Bool)
    (seeds : List (List Nat)) (programId : List Nat) : Nat → Option (Nat × Nat)
  | 0 => none
  | n + 1 =>
    let addr := createProgramAddress hash (seeds ++ [[n + 1]]) programId
    if onCurve addr then findProgramAddressAux hash onCurve seeds programId n
    else some (addr, n + 1)

/-- Modelled from the spec: `findProgramAddressSync`, a pure function of the
seed byte sequences and the program identity, searching nonces from 255
downward. -/
def findProgramAddressSync (hash : List Nat → Nat) (onCurve : Nat → Bool)
    (seeds : List (List Nat)) (programId : List Nat) : Option (Nat × Nat) :=
  findProgramAddressAux hash onCurve seeds programId 255

/-- Outcome of one `initializeProgram` rpc call as the test observes it. -/
inductive InitOutcome where
  | ok (sig : String)
  | threw (err : String)
deriving DecidableEq, Repr

/-- Outcome of the initialization test case. -/
inductive TestOutcome where
  | passed
  | assertionFailed
  | errored (err : String)
deriving DecidableEq, Repr

/-- The test's check for an already-initialized Config: the stringified error
contains "custom program error: 0x0" or "Account already in use". -/
def isAlreadyInitError (s : String) : Bool :=
  strContains s "custom program error: 0x0" || strContains s "Account already in use"

/-- The "Is initialized!" test case of TestCreateTask.ts: a successful call
passes; a failure carrying an already-in-use indication is tolerated and
verified by re-fetching the Config and asserting the stored admin equals the
expected admin; any other failure is rethrown. -/
def initializeProgramTest (outcome : InitOutcome) (storedAdmin expectedAdmin : PubKey) :
    TestOutcome :=
  match outcome with
  | InitOutcome.ok _ => TestOutcome.passed
  | InitOutcome.threw s =>
    if isAlreadyInitError s then
      if storedAdmin = expectedAdmin then TestOutcome.passed
      else TestOutcome.assertionFailed
    else TestOutcome.errored s

/-- The already-in-use indication carried by the failed call. -/
def alreadyInUseText : String := "failed to send transaction: Account already in use"

/-- Modelled from the spec: the on-chain `initializeProgram` (external
program, not in this repository) fails with an already-in-use indication
exactly when the Config account at the derived address already exists, and
succeeds otherwise. -/
def chainInitializeProgram (configExists : Bool) (sig : String) : InitOutcome :=
  if configExists then InitOutcome.threw alreadyInUseText else InitOutcome.ok sig

/-- Whether a callback invocation is a failure. -/
def isFailureCall : CallbackCall → Bool
  | CallbackCall.failure _ => true
  | CallbackCall.success _ => false

/-- Concrete parser used by the witnesses: "T" and "R" are the two
well-formed addresses. -/
def parseTest : String → Option PubKey :=
  fun s =>
    if s = "T" then some { bytes := [1] }
    else if s = "R" then some { bytes := [2] }
    else none

/-- Concrete parse-exception message used by the witnesses. -/
def perrTest : String → String := fun _ => "Invalid public key input"

/-! Helper lemmas shared by the claim theorems. -/

/-- The scanning loop computes: first marker line wins, otherwise the last
fallback-contributing line, otherwise the accumulator. -/
theorem scanLogs_eq_model (tbl : List (String × String)) :
    ∀ (logs : List String) (acc : String),
      scanLogs tbl logs acc =
        match findFirstSunpath logs with
        | some tag => applyTagTable tbl tag
        | none => (lastRelevant logs).getD acc := by
  intro logs
  induction logs with
  | nil => intro acc; rfl
  | cons l rest ih =>
    intro acc
    cases hm : strAfter l sunpathMarker with
    | some tag =>
      simp [scanLogs, findFirstSunpath, hm]
    | none =>
      by_cases he : strContains l errorMarker = true
      · simp only [scanLogs, hm, he, if_true, findFirstSunpath, lastRelevant]
        rw [ih l]
        cases hff : findFirstSunpath rest with
        | some tag => simp
        | none =>
          cases hlr : lastRelevant rest with
          | some m => simp [hlr]
          | none => simp [hlr, lineFallback, he]
      · have he' : strContains l errorMarker = false := by
          cases hcc : strContains l errorMarker
          · rfl
          · exact absurd hcc he
        by_cases hf : strContains l failedMarker = true
        · simp only [scanLogs, hm, he', Bool.false_eq_true, if_false, hf, if_true,
            findFirstSunpath, lastRelevant]
          rw [ih progFailedMsg]
          cases hff : findFirstSunpath rest with
          | some tag => simp
          | none =>
            cases hlr : lastRelevant rest with
            | some m => simp [hlr]
            | none => simp [hlr, lineFallback, he', hf]
        · have hf' : strContains l failedMarker = false := by
            cases hcc : strContains l failedMarker
            · rfl
            · exact absurd hcc hf
          simp only [scanLogs, hm, he', hf', Bool.false_eq_true, if_false,
            findFirstSunpath, lastRelevant]
          rw [ih acc]
          cases hff : findFirstSunpath rest with
          | some tag => simp
          | none =>
            cases hlr : lastRelevant rest with
            | some m => simp [hlr]
            | none => simp [hlr, lineFallback, he', hf']

/-- The loop-based translator coincides with its declarative description. -/
theorem translateError_eq_model (tbl : List (String × String)) (e : ThrownError) :
    translateError tbl e = translateErrorModel tbl e := by
  cases e with
  | mk m logs =>
    cases logs with
    | none => rfl
    | some ls =>
      simp only [translateError, translateErrorModel]
      rw [scanLogs_eq_model]

/-- With no table tag a prefix of it, the raw tag survives the chain. -/
theorem applyTagTable_eq_self (tbl : List (String × String)) (tag : String)
    (h : ∀ p ∈ tbl, strStartsWith tag p.1 = false) : applyTagTable tbl tag = tag := by
  induction tbl with
  | nil => rfl
  | cons hd tl ih =>
    have h1 := h hd (by simp)
    cases hd with
    | mk p msg =>
      simp only [applyTagTable]
      rw [h1]
      simp only [Bool.false_eq_true, if_false]
      exact ih fun q hq => h q (by simp [hq])

/-- The first marker line of a log list whose earlier lines carry no marker
determines the extracted tag. -/
theorem findFirstSunpath_append (logs1 logs2 : List String) (l tag : String)
    (h1 : ∀ x ∈ logs1, strContains x sunpathMarker = false)
    (h2 : strAfter l sunpathMarker = some tag) :
    findFirstSunpath (logs1 ++ l :: logs2) = some tag := by
  induction logs1 with
  | nil => simp [findFirstSunpath, h2]
  | cons x xs ih =>
    have hx := h1 x (by simp)
    have hxa : strAfter x sunpathMarker = none := by
      cases hxx : strAfter x sunpathMarker
      · rfl
      · rw [strContains, hxx] at hx
        simp at hx
    simp only [List.cons_append, findFirstSunpath, hxa]
    exact ih fun y hy => h1 y (by simp [hy])

/-- The confirmation-failure message is never the empty string. -/
theorem confirmFailedMsg_ne_empty (err : String) : confirmFailedMsg err ≠ "" := by
  intro h
  have hd : (confirmFailedMsg err).data = "".data := congrArg String.data h
  rw [confirmFailedMsg, String.data_append] at hd
  have h0 : ("トランザクションが失敗しました: ").data = [] := by
    have := List.append_eq_nil.mp hd
    exact this.1
  exact absurd h0 (by decide)

/-- Each submit outcome produces exactly one callback invocation. -/
theorem submitOutcome_length (tbl : List (String × String)) (net : RpcOutcome) :
    (submitOutcome tbl net).length = 1 := by
  cases net with
  | threw e => rfl
  | submitted sig cerr => cases cerr <;> rfl

/-- One little-endian digit peeled off the value of a truncated remainder. -/
theorem leBytes_step (n M : Nat) (hM : 0 < M) :
    n % 256 + 256 * (n / 256 % M) = n % (256 * M) := by
  have hx : n / 256 % M < M := Nat.mod_lt _ hM
  have hr : n % 256 < 256 := Nat.mod_lt _ (by norm_num)
  have key : n = (256 * (n / 256 % M) + n % 256) + (n / 256 / M) * (256 * M) := by
    conv_lhs => rw [← Nat.div_add_mod n 256, ← Nat.div_add_mod (n / 256) M]
    ring
  have hlt : 256 * (n / 256 % M) + n % 256 < 256 * M := by omega
  have h2 : n % (256 * M) = 256 * (n / 256 % M) + n % 256 := by
    conv_lhs => rw [key]
    rw [Nat.add_mul_mod_self_right]
    exact Nat.mod_eq_of_lt hlt
  omega

/-- The truncated little-endian encoding has the requested length. -/
theorem natToLEBytes_length : ∀ (k n : Nat), (natToLEBytes k n).length = k := by
  intro k
  induction k with
  | zero => intro n; rfl
  | succ k ih => intro n; simp [natToLEBytes, ih]

/-- The truncated little-endian encoding decodes to the value modulo 256^k. -/
theorem leBytesToNat_natToLEBytes : ∀ (k n : Nat), leBytesToNat (natToLEBytes k n) = n % 256 ^ k := by
  intro k
  induction k with
  | zero => intro n; simp [natToLEBytes, leBytesToNat, Nat.mod_one]
  | succ k ih =>
    intro n
    simp only [natToLEBytes, leBytesToNat, ih]
    rw [pow_succ, Nat.mul_comm (256 ^ k) 256]
    exact leBytes_step n (256 ^ k) (Nat.pos_pow_of_pos k (by norm_num))

/-! Claim theorems. -/

/-- Claim C1 counterexample: with log lines ["Error: A", "Error: B"] the code
surfaces the LAST generic-error line ("Error: B"), while the claim as stated
says the FIRST such line ("Error: A") is used verbatim.  Moreover the claim's
single fixed seven-tag table is wrong: the accept invoker's catch block does
not translate the reclaim-only tag CannotReclaimFunds, surfacing the raw
substring instead of the localized message the claimed table assigns. -/
theorem c1_counterexample :
    translateError acceptTagTable { message := "m", logs := some ["Error: A", "Error: B"] } = "Error: B"
    ∧ translateErrorClaimed { message := "m", logs := some ["Error: A", "Error: B"] } = "Error: A"
    ∧ translateError acceptTagTable { message := "m", logs := some ["Error: A", "Error: B"] }
        ≠ translateErrorClaimed { message := "m", logs := some ["Error: A", "Error: B"] }
    ∧ translateError acceptTagTable
        { message := "m", logs := some ["x SunpathError::CannotReclaimFunds"] } = "CannotReclaimFunds"
    ∧ translateErrorClaimed
        { message := "m", logs := some ["x SunpathError::CannotReclaimFunds"] } ≠ "CannotReclaimFunds" := by
  refine ⟨by decide, by decide, by decide, by decide, by decide⟩

/-- Claim C1 (amended): for every thrown failure object, each invoker's
translator scans the lines in order and the first line containing the
program-error marker wins — the substring after the marker is matched by
prefix against that invoker's own tag table (accept: NotTaskConsigner,
TaskNotOpen, TaskExpired, InvalidRecipient; reclaim: NotConsigner,
CannotReclaimFunds, DenialLockupActive) to a localized message, an unmatched
tag surfacing raw; otherwise the LAST line containing a generic "Error:"
marker or indicating abnormal program termination determines the message
(the former used verbatim, the latter yielding the fixed generic message);
otherwise the thrown object's own message, or the unknown-error default,
is used. -/
theorem c1_translator_first_marker_last_fallback :
    ∀ e : ThrownError,
      translateError acceptTagTable e = translateErrorModel acceptTagTable e ∧
      translateError reclaimTagTable e = translateErrorModel reclaimTagTable e :=
  fun e => ⟨translateError_eq_model _ e, translateError_eq_model _ e⟩

/-- Claim C10: when the first marker-carrying log line's tag matches none of
the invoker's table prefixes, the surfaced message is the raw untranslated
substring after the marker, regardless of what the thrown message was and of
any later log lines — scanning stops at that line. -/
theorem c10_unmatched_tag_raw (tbl : List (String × String)) (m l tag : String)
    (logs1 logs2 : List String)
    (h1 : ∀ x ∈ logs1, strContains x sunpathMarker = false)
    (h2 : strAfter l sunpathMarker = some tag)
    (h3 : ∀ p ∈ tbl, strStartsWith tag p.1 = false) :
    translateError tbl { message := m, logs := some (logs1 ++ l :: logs2) } = tag := by
  rw [translateError_eq_model]
  simp only [translateErrorModel]
  rw [findFirstSunpath_append logs1 logs2 l tag h1 h2]
  exact applyTagTable_eq_self tbl tag h3

/-- Claim C10 witness: a SunpathError tag unknown to the accept invoker
(NotConsigner) is surfaced raw, and the later "Error:" line is ignored. -/
theorem c10_witness :
    strAfter "Program log: SunpathError::NotConsigner" sunpathMarker = some "NotConsigner"
    ∧ translateError acceptTagTable
        { message := "m",
          logs := some (([] : List String) ++ "Program log: SunpathError::NotConsigner" :: ["Error: later"]) }
      = "NotConsigner" :=
  ⟨by decide,
   c10_unmatched_tag_raw acceptTagTable "m" "Program log: SunpathError::NotConsigner"
     "NotConsigner" [] ["Error: later"]
     (by intro x hx; cases hx) (by decide) (by decide)⟩

/-- Claim C2: the client passes exactly the documented seed schemes — Config
from the single literal "config_v2", the Task account from ("task_account",
consigner key bytes, task id as 8 little-endian bytes), the admin-action
counter from ("admin_counter", consigner key bytes); the id encoding really
is 8 bytes and little-endian (it decodes to the id modulo 2^64). -/
theorem c2_seed_schemes :
    ∀ (pk : PubKey) (taskId : Nat),
      configSeeds = specConfigSeeds ∧
      taskAccountSeeds pk taskId = specTaskAccountSeeds pk.bytes taskId ∧
      adminCounterSeeds pk = specAdminCounterSeeds pk.bytes ∧
      (natToLE8 taskId).length = 8 ∧
      leBytesToNat (natToLE8 taskId) = taskId % 2 ^ 64 := by
  intro pk taskId
  refine ⟨rfl, rfl, rfl, natToLEBytes_length 8 taskId, ?_⟩
  have h := leBytesToNat_natToLEBytes 8 taskId
  rw [show (256 : Nat) ^ 8 = 2 ^ 64 by norm_num] at h
  exact h

/-- Claim C9: the address deriver is deterministic — two invocations with
identical seed byte sequences (and the same program identity, hash and
curve test) return the identical address and the identical disambiguation
nonce. -/
theorem c9_deriver_deterministic (hash : List Nat → Nat) (onCurve : Nat → Bool)
    (programId : List Nat) (seeds₁ seeds₂ : List (List Nat))
    (h : seeds₁ = seeds₂) :
    findProgramAddressSync hash onCurve seeds₁ programId
      = findProgramAddressSync hash onCurve seeds₂ programId := by
  rw [h]

/-- Claim C9 witness: concrete instantiation with a sum hash and a curve test
that always fails, on equal seed lists; the search also returns a result
there. -/
theorem c9_witness :
    ([[1, 2]] : List (List Nat)) = [[1, 2]]
    ∧ findProgramAddressSync (fun l => l.foldl (fun a b => a + b) 0) (fun _ => false) [[1, 2]] [9]
        = findProgramAddressSync (fun l => l.foldl (fun a b => a + b) 0) (fun _ => false) [[1, 2]] [9]
    ∧ (findProgramAddressSync (fun l => l.foldl (fun a b => a + b) 0) (fun _ => false) [[1, 2]] [9]).isSome = true :=
  ⟨rfl,
   c9_deriver_deterministic (fun l => l.foldl (fun a b => a + b) 0) (fun _ => false) [9] [[1, 2]] [[1, 2]] rfl,
   by decide⟩

/-- Claim C5 counterexample: the useSolanaProgram hook's acquirer, invoked
with no wallet public key, produces no context AND surfaces no error to its
caller (it has no error callback; the null context is the only signal),
contradicting the claim that an error is surfaced whenever no context is
produced. -/
theorem c5_counterexample :
    (useSolanaProgramAcquire none true).1 = none
    ∧ (useSolanaProgramAcquire none true).2 = [] :=
  ⟨rfl, rfl⟩

/-- Claim C5 (amended): both provider acquirers produce a signing context
exactly when the wallet public key and the signing capability are both
present.  When either is absent, the button components' getProvider
additionally surfaces a wallet-not-connected error through the failure
callback, while the useSolanaProgram hook surfaces no error — its null
result is the only signal to the caller. -/
theorem c5_provider_characterization :
    ∀ (wallet : Option PubKey) (canSign : Bool),
      (getProvider wallet canSign).1.isSome = (wallet.isSome && canSign) ∧
      (getProvider wallet canSign).2
        = (if wallet.isSome && canSign then [] else [CallbackCall.failure wncMsg]) ∧
      (useSolanaProgramProvider wallet canSign).isSome = (wallet.isSome && canSign) ∧
      (useSolanaProgramAcquire wallet canSign).2 = [] := by
  intro wallet canSign
  cases wallet <;> cases canSign <;>
    simp [getProvider, useSolanaProgramProvider, useSolanaProgramAcquire]

/-- Claim C7: when the Config account already exists, initializeProgram fails
with an already-in-use indication; the test harness treats that failure as
"already initialized" rather than an error, re-fetches the Config and
asserts the stored admin equals the expected admin (passing exactly when it
does); a first call against a fresh Config passes outright. -/
theorem c7_already_initialized_tolerated :
    ∀ (sig : String) (stored expected : PubKey),
      chainInitializeProgram true sig = InitOutcome.threw alreadyInUseText ∧
      isAlreadyInitError alreadyInUseText = true ∧
      initializeProgramTest (chainInitializeProgram true sig) stored expected
        = (if stored = expected then TestOutcome.passed else TestOutcome.assertionFailed) ∧
      initializeProgramTest (chainInitializeProgram false sig) stored expected
        = TestOutcome.passed := by
  intro sig stored expected
  refine ⟨rfl, by decide, ?_, rfl⟩
  simp only [chainInitializeProgram, if_true, initializeProgramTest]
  rw [show isAlreadyInitError alreadyInUseText = true by decide]
  simp

/-- Claim C3: with a connected wallet and valid, distinct addresses, each
handler submits and then gates its callbacks on the confirmation result —
awaited at the "finalized" commitment, which is one of the two allowed
levels: a confirmation carrying an on-chain error routes the
confirmation-failure message to the failure callback even though a signature
was returned, and only an error-free confirmation fires the success callback
with the transaction signature. -/
theorem c3_confirmation_gates_callbacks
    (parse : String → Option PubKey) (perr : String → String) (pk t r : PubKey)
    (taskStr recipStr sig cerr : String)
    (h1 : parse taskStr = some t) (h2 : parse recipStr = some r)
    (h3 : r ≠ pk) (h4 : taskStr ≠ "") (h5 : recipStr ≠ "") :
    (confirmCommitment = "confirmed" ∨ confirmCommitment = "finalized") ∧
    (handleAcceptTask parse perr ⟨some pk, true, taskStr, recipStr⟩
        (RpcOutcome.submitted sig none)).events = [CallbackCall.success sig] ∧
    (handleAcceptTask parse perr ⟨some pk, true, taskStr, recipStr⟩
        (RpcOutcome.submitted sig (some cerr))).events
      = [CallbackCall.failure (confirmFailedMsg cerr)] ∧
    (handleReclaimFunds parse perr ⟨some pk, true, taskStr⟩
        (RpcOutcome.submitted sig none)).events = [CallbackCall.success sig] ∧
    (handleReclaimFunds parse perr ⟨some pk, true, taskStr⟩
        (RpcOutcome.submitted sig (some cerr))).events
      = [CallbackCall.failure (confirmFailedMsg cerr)] := by
  have hval : acceptValidate parse perr pk taskStr recipStr = Except.ok (t, r) := by
    simp [acceptValidate, h1, h2, h3, h4, h5]
  have hrv : reclaimValidate parse perr taskStr = Except.ok t := by
    simp [reclaimValidate, h1]
  have htr : ∀ tbl : List (String × String),
      translateError tbl { message := confirmFailedMsg cerr, logs := none }
        = confirmFailedMsg cerr := by
    intro tbl
    simp [translateError, confirmFailedMsg_ne_empty cerr]
  refine ⟨Or.inr rfl, ?_, ?_, ?_, ?_⟩ <;>
    simp [handleAcceptTask, handleReclaimFunds, getProvider, hval, hrv,
      submitOutcome, htr]

/-- Claim C3 witness: concrete wallet, parser and strings. -/
theorem c3_witness :
    parseTest "T" = some { bytes := [1] } ∧
    (handleAcceptTask parseTest perrTest ⟨some { bytes := [3] }, true, "T", "R"⟩
        (RpcOutcome.submitted "sig" none)).events = [CallbackCall.success "sig"] ∧
    (handleAcceptTask parseTest perrTest ⟨some { bytes := [3] }, true, "T", "R"⟩
        (RpcOutcome.submitted "sig" (some "custom err"))).events
      = [CallbackCall.failure (confirmFailedMsg "custom err")] ∧
    (handleReclaimFunds parseTest perrTest ⟨some { bytes := [3] }, true, "T"⟩
        (RpcOutcome.submitted "sig" none)).events = [CallbackCall.success "sig"] :=
  ⟨by decide,
   (c3_confirmation_gates_callbacks parseTest perrTest { bytes := [3] } { bytes := [1] }
      { bytes := [2] } "T" "R" "sig" "custom err" (by decide) (by decide) (by decide)
      (by decide) (by decide)).2.1,
   (c3_confirmation_gates_callbacks parseTest perrTest { bytes := [3] } { bytes := [1] }
      { bytes := [2] } "T" "R" "sig" "custom err" (by decide) (by decide) (by decide)
      (by decide) (by decide)).2.2.1,
   (c3_confirmation_gates_callbacks parseTest perrTest { bytes := [3] } { bytes := [1] }
      { bytes := [2] } "T" "R" "sig" "custom err" (by decide) (by decide) (by decide)
      (by decide) (by decide)).2.2.2.1⟩

/-- Claim C4: with a connected wallet, whenever the task-PDA string or the
recipient string is missing or unparseable, or the parsed recipient equals
the connected wallet, `handleAcceptTask` invokes the failure callback
exactly once with a local error and returns: the busy flag is never set and
no network submission is reached, for every possible network outcome. -/
theorem c4_local_validation_fails_fast
    (parse : String → Option PubKey) (perr : String → String) (pk : PubKey)
    (taskStr recipStr : String) (net : RpcOutcome)
    (h : taskStr = "" ∨ recipStr = "" ∨ parse taskStr = none ∨
         parse recipStr = none ∨ parse recipStr = some pk) :
    ((handleAcceptTask parse perr ⟨some pk, true, taskStr, recipStr⟩ net).events.map isFailureCall
        = [true]) ∧
    (handleAcceptTask parse perr ⟨some pk, true, taskStr, recipStr⟩ net).enteredLoading = false ∧
    (handleAcceptTask parse perr ⟨some pk, true, taskStr, recipStr⟩ net).reachedSubmit = false ∧
    (handleAcceptTask parse perr ⟨some pk, true, taskStr, recipStr⟩ net).loadingAtEnd = false := by
  have hval : ∃ m, acceptValidate parse perr pk taskStr recipStr = Except.error m := by
    by_cases hts : taskStr = ""
    · exact ⟨pkFormatMsg requiredMsg, by simp [acceptValidate, hts]⟩
    · by_cases hrs : recipStr = ""
      · exact ⟨pkFormatMsg requiredMsg, by simp [acceptValidate, hts, hrs]⟩
      · cases hpt : parse taskStr with
        | none => exact ⟨pkFormatMsg (perr taskStr), by simp [acceptValidate, hts, hrs, hpt]⟩
        | some t =>
          cases hpr : parse recipStr with
          | none => exact ⟨pkFormatMsg (perr recipStr), by simp [acceptValidate, hts, hrs, hpt, hpr]⟩
          | some r =>
            have hr : r = pk := by
              rcases h with h | h | h | h | h
              · exact absurd h hts
              · exact absurd h hrs
              · rw [hpt] at h; cases h
              · rw [hpr] at h; cases h
              · rw [hpr] at h; injection h
            exact ⟨pkFormatMsg sameAddressMsg, by simp [acceptValidate, hts, hrs, hpt, hpr, hr]⟩
  obtain ⟨m, hm⟩ := hval
  refine ⟨?_, ?_, ?_, ?_⟩ <;>
    simp [handleAcceptTask, getProvider, hm, isFailureCall]

/-- Claim C4 witness: empty task-PDA string with a connected wallet. -/
theorem c4_witness :
    (("" : String) = "" ∨ ("R" : String) = "" ∨ parseTest "" = none ∨
        parseTest "R" = none ∨ parseTest "R" = some { bytes := [3] }) ∧
    ((handleAcceptTask parseTest perrTest ⟨some { bytes := [3] }, true, "", "R"⟩
        (RpcOutcome.submitted "sig" none)).events.map isFailureCall = [true]) ∧
    (handleAcceptTask parseTest perrTest ⟨some { bytes := [3] }, true, "", "R"⟩
        (RpcOutcome.submitted "sig" none)).reachedSubmit = false :=
  ⟨Or.inl rfl,
   (c4_local_validation_fails_fast parseTest perrTest { bytes := [3] } "" "R"
      (RpcOutcome.submitted "sig" none) (Or.inl rfl)).1,
   (c4_local_validation_fails_fast parseTest perrTest { bytes := [3] } "" "R"
      (RpcOutcome.submitted "sig" none) (Or.inl rfl)).2.2.1⟩

/-- Claim C6 counterexample: a click with no wallet public key makes the
accept handler invoke the failure callback TWICE (once inside getProvider,
once in the handler's own guard), contradicting the claim that no click
causes more than one failure-callback invocation, wallet-not-connected path
included. -/
theorem c6_counterexample :
    (handleAcceptTask parseTest perrTest ⟨none, true, "T", "R"⟩
        (RpcOutcome.submitted "sig" none)).events
      = [CallbackCall.failure wncMsg, CallbackCall.failure wncMsg]
    ∧ (handleAcceptTask parseTest perrTest ⟨none, true, "T", "R"⟩
        (RpcOutcome.submitted "sig" none)).events.length = 2 := by
  refine ⟨by decide, by decide⟩

/-- Claim C6 (amended): every user-initiated click of an invoker control
surfaces its outcome through exactly one callback invocation — no retry, no
silent swallowing — EXCEPT the wallet-not-connected path with a missing
public key, where the failure callback fires twice (once from provider
acquisition and once from the handler guard). -/
theorem c6_exactly_one_callback :
    ∀ (parse : String → Option PubKey) (perr : String → String)
      (inp : AcceptInputs) (inp2 : ReclaimInputs) (net net2 : RpcOutcome),
      (handleAcceptTask parse perr inp net).events.length
        = (if inp.wallet.isNone then 2 else 1) ∧
      (handleReclaimFunds parse perr inp2 net2).events.length
        = (if inp2.wallet.isNone then 2 else 1) := by
  intro parse perr inp inp2 net net2
  obtain ⟨w, cs, tSt, rSt⟩ := inp
  obtain ⟨w2, cs2, tSt2⟩ := inp2
  constructor
  · cases w with
    | none => cases cs <;> simp [handleAcceptTask, getProvider]
    | some pk =>
      cases cs with
      | false => simp [handleAcceptTask, getProvider]
      | true =>
        cases hv : acceptValidate parse perr pk tSt rSt with
        | error m => simp [handleAcceptTask, getProvider, hv]
        | ok pr => simp [handleAcceptTask, getProvider, hv, submitOutcome_length]
  · cases w2 with
    | none => cases cs2 <;> simp [handleReclaimFunds, getProvider]
    | some pk =>
      cases cs2 with
      | false => simp [handleReclaimFunds, getProvider]
      | true =>
        cases hv : reclaimValidate parse perr tSt2 with
        | error m => simp [handleReclaimFunds, getProvider, hv]
        | ok pr => simp [handleReclaimFunds, getProvider, hv, submitOutcome_length]

/-- Claim C8: in both invoker components the busy flag is set exactly when
the submission phase begins and is always cleared by the time the handler
finishes (success and every failure path alike), and while the flag is set
the control's disabled predicate holds, so re-entrant submission from the
same control is impossible. -/
theorem c8_busy_flag :
    ∀ (parse : String → Option PubKey) (perr : String → String)
      (inp : AcceptInputs) (inp2 : ReclaimInputs) (net net2 : RpcOutcome),
      (handleAcceptTask parse perr inp net).loadingAtEnd = false ∧
      (handleAcceptTask parse perr inp net).enteredLoading
        = (handleAcceptTask parse perr inp net).reachedSubmit ∧
      (handleReclaimFunds parse perr inp2 net2).loadingAtEnd = false ∧
      (handleReclaimFunds parse perr inp2 net2).enteredLoading
        = (handleReclaimFunds parse perr inp2 net2).reachedSubmit ∧
      (∀ (w : Option PubKey) (t r : String), acceptButtonDisabled w true t r = true) ∧
      (∀ (w : Option PubKey) (t : String), reclaimButtonDisabled w true t = true) := by
  intro parse perr inp inp2 net net2
  obtain ⟨w, cs, tSt, rSt⟩ := inp
  obtain ⟨w2, cs2, tSt2⟩ := inp2
  have hacc : ∀ pk, (handleAcceptTask parse perr ⟨some pk, true, tSt, rSt⟩ net).loadingAtEnd = false
      ∧ (handleAcceptTask parse perr ⟨some pk, true, tSt, rSt⟩ net).enteredLoading
        = (handleAcceptTask parse perr ⟨some pk, true, tSt, rSt⟩ net).reachedSubmit := by
    intro pk
    cases hv : acceptValidate parse perr pk tSt rSt with
    | error m => simp [handleAcceptTask, getProvider, hv]
    | ok pr => simp [handleAcceptTask, getProvider, hv]
  have hrec : ∀ pk, (handleReclaimFunds parse perr ⟨some pk, true, tSt2⟩ net2).loadingAtEnd = false
      ∧ (handleReclaimFunds parse perr ⟨some pk, true, tSt2⟩ net2).enteredLoading
        = (handleReclaimFunds parse perr ⟨some pk, true, tSt2⟩ net2).reachedSubmit := by
    intro pk
    cases hv : reclaimValidate parse perr tSt2 with
    | error m => simp [handleReclaimFunds, getProvider, hv]
    | ok pr => simp [handleReclaimFunds, getProvider, hv]
  refine ⟨?_, ?_, ?_, ?_, ?_, ?_⟩
  · cases w with
    | none => cases cs <;> simp [handleAcceptTask, getProvider]
    | some pk =>
      cases cs with
      | false => simp [handleAcceptTask, getProvider]
      | true => exact (hacc pk).1
  · cases w with
    | none => cases cs <;> simp [handleAcceptTask, getProvider]
    | some pk =>
      cases cs with
      | false => simp [handleAcceptTask, getProvider]
      | true => exact (hacc pk).2
  · cases w2 with
    | none => cases cs2 <;> simp [handleReclaimFunds, getProvider]
    | some pk =>
      cases cs2 with
      | false => simp [handleReclaimFunds, getProvider]
      | true => exact (hrec pk).1
  · cases w2 with
    | none => cases cs2 <;> simp [handleReclaimFunds, getProvider]
    | some pk =>
      cases cs2 with
      | false => simp [handleReclaimFunds, getProvider]
      | true => exact (hrec pk).2
  · intro w t r; simp [acceptButtonDisabled]
  · intro w t; simp [reclaimButtonDisabled]

end Spath
